import Mathlib

/-!
Shallow embedding of the Discord chatbot (chatbot.py): the router that
decides whether to engage, the per-user bounded history cache, the
cooldown-based admission gate, the orchestration around the single
OpenAI completion call (with its typing keep-alive task), and the
output segmenter.  Text is modelled as a list of characters, instants
as integer seconds, and the global defaultdict tables as total
functions from user ids.  The external completion call is passed in as
an `Except` value: `Except.ok t` stands for a response whose extracted
text is `t`, `Except.error e` for any exception raised by the call.
-/

/-- One stored turn, a pair of a role string and the text content: the
cache holds tuples such as a user pair or an assistant pair, and the
request list holds dicts with the same two fields. -/
structure Turn where
  role : String
  content : String
deriving DecidableEq, Repr

/-- Seconds from the Unix epoch down to `datetime.min` (year 1), the
default timestamp of an untouched last-interaction entry. -/
def datetimeMin : Int := -62135596800

/-- One entry of `user_last_interaction`: a timestamp and the channel of
the most recent interaction (`none` models the initial `None`). -/
structure LastInter where
  time : Int
  channel : Option Nat
deriving DecidableEq, Repr

/-- The defaultdict default: time `datetime.min`, channel `None`. -/
def LastInter.start : LastInter := ⟨datetimeMin, none⟩

/-- The environment-driven configuration: `MAX_CACHE` (default 5),
`COOLDOWN_TIME` (default 2), and the system message loaded from
`system_message.txt`. -/
structure Config where
  MAX_CACHE : Nat
  COOLDOWN_TIME : Nat
  SYSTEM_MESSAGE : String

/-- The three global mutable tables, keyed by user id.  The front of a
cache list is the oldest deque element (`popleft` removes the head,
`append` adds at the tail). -/
structure BotState where
  user_message_cache : Nat → List Turn
  user_cooldown : Nat → Nat
  user_last_interaction : Nat → LastInter

/-- Initial state of the three defaultdicts: empty deque, cooldown 0,
default last interaction. -/
def BotState.init : BotState :=
  { user_message_cache := fun _ => []
    user_cooldown := fun _ => 0
    user_last_interaction := fun _ => LastInter.start }

/-- Point update of a keyed table. -/
def updFn {α : Type} (f : Nat → α) (k : Nat) (v : α) : Nat → α :=
  fun j => if j = k then v else f j

/-- An incoming Discord message as the handler sees it: author and
channel ids, the text, whether the author is a bot, whether the bot is
mentioned, whether the message replies to a bot message, and the
externally resolved role-permission check of the guild. -/
structure Message where
  authorId : Nat
  channelId : Nat
  content : String
  authorIsBot : Bool
  mentionsBot : Bool
  repliesToBot : Bool
  hasPermission : Bool
deriving DecidableEq, Repr

/-- Fuel-indexed chunking loop: each step takes the next `limit`
characters, mirroring one iteration of the slicing comprehension in
`split_message`.  The fuel is instantiated with the text length, which
bounds the number of chunks whenever `limit` is positive. -/
def splitMessageAux : Nat → List Char → Nat → List (List Char)
  | 0, _, _ => []
  | _ + 1, [], _ => []
  | fuel + 1, c :: cs, limit =>
      (c :: cs).take limit :: splitMessageAux fuel ((c :: cs).drop limit) limit

/-- `split_message(content, limit)`: the list of slices
`content[i:i+limit]` for `i = 0, limit, 2*limit, ...` below the length.
Only meaningful for a positive `limit` (Python raises `ValueError` on a
zero step). -/
def split_message (content : List Char) (limit : Nat) : List (List Char) :=
  splitMessageAux content.length content limit

/-- `send_large_message`: one `channel.send` per chunk of the default
2000-character split; the returned list is the sequence of sent chunks. -/
def send_large_message (content : List Char) : List (List Char) :=
  split_message content 2000

/-- The engagement predicate of `on_message` (lines 59 to 65): respond
when mentioned, or when replying to the bot, or when the author's last
interaction is within 120 seconds of now and in the same channel. -/
def shouldRespond (li : LastInter) (now : Int) (m : Message) : Bool :=
  let mentioned := m.mentionsBot
  let replied_to_bot := m.repliesToBot
  let within_time := decide (now - li.time ≤ 120)
  let same_channel := li.channel == some m.channelId
  mentioned || replied_to_bot || (within_time && same_channel)

/-- The request list built on lines 92 to 95: start from the system
message, append each cached turn in order, then append the new user
turn. -/
def buildMessages (systemMessage : String) (cache : List Turn)
    (newContent : String) : List Turn :=
  let messages : List Turn := [⟨"system", systemMessage⟩]
  let messages := cache.foldl (fun acc t => acc ++ [⟨t.role, t.content⟩]) messages
  messages ++ [⟨"user", newContent⟩]

/-- Outcome of `chat_with_openai`. -/
inductive ChatOutcome where
  | suppressedCooldown
  | replied (text : String)
  | failed (err : String)
deriving DecidableEq, Repr

/-- Result of one `chat_with_openai` call: the state afterwards, the
outcome, the request actually sent to the completion service (`none`
when no call was made), and whether the typing keep-alive task was
started and whether it was cancelled. -/
structure ChatResult where
  state : BotState
  outcome : ChatOutcome
  request : Option (List Turn)
  typingStarted : Bool
  typingCancelled : Bool

/-- `chat_with_openai` (lines 77 to 121).  If the user's cooldown is
truthy, send the cooldown notice and return.  Otherwise start the
typing keep-alive task, build the request, and make the call: on
success, cancel typing, send the reply, pop the oldest cached item when
the cache has reached `MAX_CACHE`, append the user and assistant turns,
and arm the cooldown; on an exception, cancel typing and report the
error without touching any table. -/
def chat_with_openai (cfg : Config) (s : BotState) (m : Message)
    (completion : Except String String) : ChatResult :=
  if s.user_cooldown m.authorId ≠ 0 then
    { state := s, outcome := .suppressedCooldown, request := none,
      typingStarted := false, typingCancelled := false }
  else
    let messages := buildMessages cfg.SYSTEM_MESSAGE (s.user_message_cache m.authorId) m.content
    match completion with
    | .ok ai_text =>
        let cache0 := s.user_message_cache m.authorId
        let cache1 := if cache0.length ≥ cfg.MAX_CACHE then cache0.tail else cache0
        let cache2 := cache1 ++ [⟨"user", m.content⟩, ⟨"assistant", ai_text⟩]
        { state :=
            { s with
              user_message_cache := updFn s.user_message_cache m.authorId cache2,
              user_cooldown := updFn s.user_cooldown m.authorId cfg.COOLDOWN_TIME },
          outcome := .replied ai_text, request := some messages,
          typingStarted := true, typingCancelled := true }
    | .error e =>
        { state := s, outcome := .failed e, request := some messages,
          typingStarted := true, typingCancelled := true }

/-- `cooldown_user` (lines 123 to 125): after sleeping `COOLDOWN_TIME`
seconds the user's cooldown entry is reset to 0. -/
def cooldown_user (s : BotState) (user_id : Nat) : BotState :=
  { s with user_cooldown := updFn s.user_cooldown user_id 0 }

/-- Outcome of one `on_message` invocation. -/
inductive HandleOutcome where
  | ignoredBot
  | notEngaged
  | suppressedPermission
  | chatted (o : ChatOutcome)
deriving DecidableEq, Repr

/-- `on_message` (lines 54 to 75): drop bot authors; drop messages the
router does not engage; send a permission notice and stop when the role
check fails; otherwise run `chat_with_openai` and then, unconditionally,
record now and this channel as the author's last interaction. -/
def on_message (cfg : Config) (s : BotState) (now : Int) (m : Message)
    (completion : Except String String) : BotState × HandleOutcome :=
  if m.authorIsBot then (s, .ignoredBot)
  else if !(shouldRespond (s.user_last_interaction m.authorId) now m) then
    (s, .notEngaged)
  else if !m.hasPermission then (s, .suppressedPermission)
  else
    let r := chat_with_openai cfg s m completion
    ({ r.state with
        user_last_interaction :=
          updFn r.state.user_last_interaction m.authorId ⟨now, some m.channelId⟩ },
      .chatted r.outcome)

/-- Concrete configuration used by the closed instances: the default
`MAX_CACHE` of 5 and `COOLDOWN_TIME` of 2. -/
def cfg0 : Config := ⟨5, 2, "sys"⟩

/-- A concrete engaged, permitted message from user 1 in channel 7. -/
def msg0 : Message :=
  { authorId := 1, channelId := 7, content := "hi", authorIsBot := false,
    mentionsBot := true, repliesToBot := false, hasPermission := true }

/-- State after one successful exchange for `msg0` followed by the
cooldown expiry. -/
def demoState1 : BotState :=
  cooldown_user (chat_with_openai cfg0 BotState.init msg0 (Except.ok "r1")).state 1

/-- State after a second successful exchange and expiry. -/
def demoState2 : BotState :=
  cooldown_user (chat_with_openai cfg0 demoState1 msg0 (Except.ok "r2")).state 1

/-- State after a third successful exchange (no expiry applied). -/
def demoState3 : BotState :=
  (chat_with_openai cfg0 demoState2 msg0 (Except.ok "r3")).state

lemma splitMessageAux_nil (fuel limit : Nat) : splitMessageAux fuel [] limit = [] := by
  cases fuel <;> rfl

lemma splitMessageAux_fuel {limit : Nat} (hl : 0 < limit) :
    ∀ fuel (content : List Char), content.length ≤ fuel →
      splitMessageAux fuel content limit = splitMessageAux content.length content limit := by
  intro fuel
  induction fuel using Nat.strong_induction_on with
  | _ fuel ih =>
    intro content h
    match fuel, content with
    | 0, content =>
        have : content = [] := List.eq_nil_of_length_eq_zero (Nat.le_zero.mp h)
        subst this; rfl
    | fuel + 1, [] => simp [splitMessageAux_nil]
    | fuel + 1, c :: cs =>
        have hlen : (c :: cs).length = cs.length + 1 := rfl
        rw [hlen]
        show (c :: cs).take limit :: splitMessageAux fuel ((c :: cs).drop limit) limit
           = (c :: cs).take limit :: splitMessageAux cs.length ((c :: cs).drop limit) limit
        have hdlen : ((c :: cs).drop limit).length = cs.length + 1 - limit := by
          simp [List.length_drop]
        have hd1 : ((c :: cs).drop limit).length ≤ fuel := by
          rw [hdlen]; simp at h; omega
        have hd2 : ((c :: cs).drop limit).length ≤ cs.length := by
          rw [hdlen]; omega
        rw [ih fuel (Nat.lt_succ_self fuel) _ hd1,
            ih cs.length (by simp at h; omega) _ hd2]

lemma split_message_nil (limit : Nat) : split_message [] limit = [] := rfl

lemma split_message_cons {limit : Nat} (hl : 0 < limit) (c : Char) (cs : List Char) :
    split_message (c :: cs) limit =
      (c :: cs).take limit :: split_message ((c :: cs).drop limit) limit := by
  show splitMessageAux (cs.length + 1) (c :: cs) limit = _
  show (c :: cs).take limit :: splitMessageAux cs.length ((c :: cs).drop limit) limit = _
  unfold split_message
  rw [splitMessageAux_fuel hl cs.length _ (by simp [List.length_drop]; omega)]

lemma split_message_flatten {limit : Nat} (hl : 0 < limit) :
    ∀ content : List Char, (split_message content limit).flatten = content := by
  have H : ∀ n (content : List Char), content.length ≤ n →
      (split_message content limit).flatten = content := by
    intro n
    induction n with
    | zero =>
        intro content h
        have : content = [] := List.eq_nil_of_length_eq_zero (Nat.le_zero.mp h)
        subst this; simp [split_message_nil]
    | succ n ih =>
        intro content h
        match content with
        | [] => simp [split_message_nil]
        | c :: cs =>
            have hlen : (c :: cs).length = cs.length + 1 := by simp
            rw [split_message_cons hl, List.flatten_cons,
                ih ((c :: cs).drop limit)
                  (by rw [List.length_drop]; omega)]
            exact List.take_append_drop limit (c :: cs)
  intro content
  exact H content.length content (Nat.le_refl _)

lemma split_message_count {limit : Nat} (hl : 0 < limit) :
    ∀ content : List Char, content ≠ [] →
      (split_message content limit).length = (content.length - 1) / limit + 1 := by
  have H : ∀ n (content : List Char), content.length ≤ n → content ≠ [] →
      (split_message content limit).length = (content.length - 1) / limit + 1 := by
    intro n
    induction n with
    | zero =>
        intro content h hne
        exact absurd (List.eq_nil_of_length_eq_zero (Nat.le_zero.mp h)) hne
    | succ n ih =>
        intro content h hne
        match content with
        | [] => exact absurd rfl hne
        | c :: cs =>
            have hlen : (c :: cs).length = cs.length + 1 := by simp
            rw [split_message_cons hl, List.length_cons]
            by_cases hd : (c :: cs).drop limit = []
            · have hle : (c :: cs).length ≤ limit := by
                by_contra hgt
                have hld := List.length_drop limit (c :: cs)
                rw [hd] at hld
                simp at hld
                omega
              rw [hd, split_message_nil]
              have hz : ((c :: cs).length - 1) / limit = 0 := by
                apply Nat.div_eq_of_lt
                omega
              rw [hz]
              simp
            · have hgt : limit < (c :: cs).length := by
                by_contra hle
                exact hd (List.drop_of_length_le (by omega))
              have hdlen : ((c :: cs).drop limit).length = (c :: cs).length - limit :=
                List.length_drop limit (c :: cs)
              rw [ih ((c :: cs).drop limit)
                    (by rw [List.length_drop]; omega) hd]
              rw [hdlen]
              have key : ((c :: cs).length - 1) / limit
                  = ((c :: cs).length - limit - 1) / limit + 1 := by
                have hsplit : (c :: cs).length - 1
                    = ((c :: cs).length - limit - 1) + limit := by
                  omega
                rw [hsplit, Nat.add_div_right _ hl]
              rw [key]
  intro content hne
  exact H content.length content (Nat.le_refl _) hne

lemma split_message_chunks {limit : Nat} (hl : 0 < limit) :
    ∀ content chunk, chunk ∈ split_message content limit →
      chunk.length ≤ limit ∧ chunk ≠ [] := by
  have H : ∀ n (content : List Char), content.length ≤ n →
      ∀ chunk, chunk ∈ split_message content limit →
        chunk.length ≤ limit ∧ chunk ≠ [] := by
    intro n
    induction n with
    | zero =>
        intro content h chunk hmem
        have : content = [] := List.eq_nil_of_length_eq_zero (Nat.le_zero.mp h)
        subst this
        rw [split_message_nil] at hmem
        exact absurd hmem (List.not_mem_nil chunk)
    | succ n ih =>
        intro content h chunk hmem
        match content with
        | [] =>
            rw [split_message_nil] at hmem
            exact absurd hmem (List.not_mem_nil chunk)
        | c :: cs =>
            rw [split_message_cons hl] at hmem
            rcases List.mem_cons.mp hmem with hhead | htail
            · subst hhead
              constructor
              · rw [List.length_take]; omega
              · obtain ⟨m, rfl⟩ := Nat.exists_eq_add_of_lt hl
                simp [List.take_cons]
            · exact ih ((c :: cs).drop limit)
                (by simp [List.length_drop] at h ⊢; omega) chunk htail
  intro content chunk hmem
  exact H content.length content (Nat.le_refl _) chunk hmem

lemma buildMessages_foldl (init : List Turn) (l : List Turn) :
    l.foldl (fun acc t => acc ++ [⟨t.role, t.content⟩]) init = init ++ l := by
  induction l generalizing init with
  | nil => simp
  | cons t ts ih =>
      have ht : (⟨t.role, t.content⟩ : Turn) = t := by cases t; rfl
      simp only [List.foldl_cons, ht, ih]
      simp

lemma buildMessages_eq (sys : String) (cache : List Turn) (newContent : String) :
    buildMessages sys cache newContent =
      ⟨"system", sys⟩ :: cache ++ [⟨"user", newContent⟩] := by
  show cache.foldl (fun acc t => acc ++ [⟨t.role, t.content⟩])
        [⟨"system", sys⟩] ++ [⟨"user", newContent⟩]
      = ⟨"system", sys⟩ :: cache ++ [⟨"user", newContent⟩]
  rw [buildMessages_foldl]
  rfl

/-- C3 (confirmed): the engagement decision is exactly the disjunction
of a mention, a reply to the bot, and a within-120-seconds same-channel
last interaction; a mention or a reply engages regardless of the
recency and channel state; without either, a 119-second-old
same-channel last interaction engages and a 121-second-old one does
not. -/
theorem C3_router_decision :
    (∀ (li : LastInter) (now : Int) (m : Message),
        shouldRespond li now m =
          (m.mentionsBot || m.repliesToBot ||
            (decide (now - li.time ≤ 120) && (li.channel == some m.channelId)))) ∧
    (∀ (li : LastInter) (now : Int) (m : Message),
        shouldRespond li now { m with mentionsBot := true } = true) ∧
    (∀ (li : LastInter) (now : Int) (m : Message),
        shouldRespond li now { m with repliesToBot := true } = true) ∧
    (∀ (now : Int) (m : Message),
        shouldRespond ⟨now - 119, some m.channelId⟩ now
          { m with mentionsBot := false, repliesToBot := false } = true) ∧
    (∀ (now : Int) (m : Message),
        shouldRespond ⟨now - 121, some m.channelId⟩ now
          { m with mentionsBot := false, repliesToBot := false } = false) := by
  refine ⟨fun li now m => rfl,
          fun li now m => by simp [shouldRespond],
          fun li now m => by simp [shouldRespond],
          fun now m => ?_, fun now m => ?_⟩
  · have h119 : now - (now - 119) = (119 : Int) := by ring
    simp [shouldRespond, h119]
  · have h121 : now - (now - 121) = (121 : Int) := by ring
    simp [shouldRespond, h121]

/-- C9 (confirmed): the typing keep-alive task is cancelled exactly
when it was started: on both the success and the failure exit path of
the orchestration around the completion call the task is cancelled, and
on the cooldown-suppressed path it was never started, so no exit leaves
it running. -/
theorem C9_keepalive_cancelled (cfg : Config) (s : BotState) (m : Message)
    (completion : Except String String) :
    (chat_with_openai cfg s m completion).typingCancelled =
      (chat_with_openai cfg s m completion).typingStarted := by
  unfold chat_with_openai
  split
  · rfl
  · cases completion <;> rfl

/-- C10 (confirmed): on empty input the segmenter produces zero chunks,
so delivering an empty response performs no send at all. -/
theorem C10_empty_input_no_sends (limit : Nat) :
    split_message [] limit = [] ∧ send_large_message [] = [] :=
  ⟨rfl, rfl⟩

/-- C7 (confirmed): for nonempty text and a positive limit the
segmenter produces exactly the ceiling of length over limit many
chunks, each chunk is at most limit long and nonempty, and the chunks
concatenate back to the original text. -/
theorem C7_segmenter_correct (content : List Char) (limit : Nat)
    (hc : content ≠ []) (hl : 0 < limit) :
    (split_message content limit).length = (content.length + limit - 1) / limit ∧
    (∀ chunk ∈ split_message content limit, chunk.length ≤ limit ∧ chunk ≠ []) ∧
    (split_message content limit).flatten = content := by
  refine ⟨?_, fun chunk hmem => split_message_chunks hl content chunk hmem,
          split_message_flatten hl content⟩
  rw [split_message_count hl content hc]
  have h1 : 0 < content.length := List.length_pos.mpr hc
  have hceil : content.length + limit - 1 = (content.length - 1) + limit := by omega
  rw [hceil, Nat.add_div_right _ hl]

/-- Witness for C7 at the text abc with limit 2. -/
theorem C7_segmenter_correct_witness :
    (['a', 'b', 'c'] : List Char) ≠ [] ∧ 0 < 2 ∧
    ((split_message ['a', 'b', 'c'] 2).length = (['a', 'b', 'c'].length + 2 - 1) / 2 ∧
      (∀ chunk ∈ split_message ['a', 'b', 'c'] 2, chunk.length ≤ 2 ∧ chunk ≠ []) ∧
      (split_message ['a', 'b', 'c'] 2).flatten = ['a', 'b', 'c']) :=
  ⟨by decide, by decide,
    C7_segmenter_correct ['a', 'b', 'c'] 2 (by decide) (by decide)⟩

/-- C8 (confirmed): for every admitted event the request sent to the
completion service is the fixed system instruction, then the user's
stored turns in stored order, then the new user turn. -/
theorem C8_request_composition (cfg : Config) (s : BotState) (m : Message)
    (completion : Except String String) (h : s.user_cooldown m.authorId = 0) :
    (chat_with_openai cfg s m completion).request =
      some (⟨"system", cfg.SYSTEM_MESSAGE⟩ :: s.user_message_cache m.authorId
            ++ [⟨"user", m.content⟩]) := by
  unfold chat_with_openai
  rw [if_neg (by simp [h])]
  cases completion <;> simp [buildMessages_eq]

/-- Witness for C8 on the initial state. -/
theorem C8_request_composition_witness :
    BotState.init.user_cooldown 1 = 0 ∧
    (chat_with_openai cfg0 BotState.init msg0 (Except.ok "r")).request =
      some (⟨"system", cfg0.SYSTEM_MESSAGE⟩ :: BotState.init.user_message_cache msg0.authorId
            ++ [⟨"user", msg0.content⟩]) :=
  ⟨rfl, C8_request_composition cfg0 BotState.init msg0 (Except.ok "r") rfl⟩

/-- C6 (confirmed): on a successful exchange, when the pre-insertion
history length is at or above the cap exactly the one oldest item is
evicted (the list head, the oldest deque element), and otherwise
nothing is evicted; then the user turn and the assistant turn are
appended, in that order, at the newest end. -/
theorem C6_eviction_policy (cfg : Config) (s : BotState) (m : Message) (t : String)
    (h : s.user_cooldown m.authorId = 0) :
    (chat_with_openai cfg s m (Except.ok t)).state.user_message_cache m.authorId =
      (if cfg.MAX_CACHE ≤ (s.user_message_cache m.authorId).length
        then (s.user_message_cache m.authorId).tail
        else s.user_message_cache m.authorId)
      ++ [⟨"user", m.content⟩, ⟨"assistant", t⟩] := by
  unfold chat_with_openai
  rw [if_neg (by simp [h])]
  simp [updFn]

/-- Witness for C6 on the initial state. -/
theorem C6_eviction_policy_witness :
    BotState.init.user_cooldown 1 = 0 ∧
    (chat_with_openai cfg0 BotState.init msg0 (Except.ok "r")).state.user_message_cache msg0.authorId =
      (if cfg0.MAX_CACHE ≤ (BotState.init.user_message_cache msg0.authorId).length
        then (BotState.init.user_message_cache msg0.authorId).tail
        else BotState.init.user_message_cache msg0.authorId)
      ++ [⟨"user", msg0.content⟩, ⟨"assistant", "r"⟩] :=
  ⟨rfl, C6_eviction_policy cfg0 BotState.init msg0 "r" rfl⟩

lemma chat_with_openai_suppressed (cfg : Config) (s : BotState) (m : Message)
    (completion : Except String String) (h : s.user_cooldown m.authorId ≠ 0) :
    chat_with_openai cfg s m completion =
      { state := s, outcome := .suppressedCooldown, request := none,
        typingStarted := false, typingCancelled := false } := by
  unfold chat_with_openai
  rw [if_pos h]

lemma chat_with_openai_ok_outcome (cfg : Config) (s : BotState) (m : Message)
    (t : String) (h : s.user_cooldown m.authorId = 0) :
    (chat_with_openai cfg s m (Except.ok t)).outcome = .replied t := by
  unfold chat_with_openai
  rw [if_neg (by simp [h])]

lemma chat_with_openai_ok_cooldown (cfg : Config) (s : BotState) (m : Message)
    (t : String) (h : s.user_cooldown m.authorId = 0) :
    (chat_with_openai cfg s m (Except.ok t)).state.user_cooldown m.authorId
      = cfg.COOLDOWN_TIME := by
  unfold chat_with_openai
  rw [if_neg (by simp [h])]
  simp [updFn]

lemma chat_with_openai_error_eq (cfg : Config) (s : BotState) (m : Message)
    (e : String) :
    chat_with_openai cfg s m (Except.error e) =
      if s.user_cooldown m.authorId ≠ 0 then
        { state := s, outcome := .suppressedCooldown, request := none,
          typingStarted := false, typingCancelled := false }
      else
        { state := s, outcome := .failed e,
          request := some (buildMessages cfg.SYSTEM_MESSAGE
            (s.user_message_cache m.authorId) m.content),
          typingStarted := true, typingCancelled := true } := by
  unfold chat_with_openai
  split
  · rfl
  · rfl

lemma chat_with_openai_ok_cache (cfg : Config) (s : BotState) (m : Message)
    (t : String) (h : s.user_cooldown m.authorId = 0) :
    (chat_with_openai cfg s m (Except.ok t)).state.user_message_cache m.authorId =
      (if cfg.MAX_CACHE ≤ (s.user_message_cache m.authorId).length
        then (s.user_message_cache m.authorId).tail
        else s.user_message_cache m.authorId)
      ++ [⟨"user", m.content⟩, ⟨"assistant", t⟩] := by
  unfold chat_with_openai
  rw [if_neg (by simp [h])]
  simp [updFn]

/-- C1 counterexample: with the default cap of 5, three successful
admitted exchanges from the empty state (the first two followed by the
cooldown expiry) leave 6 stored turns, exceeding the cap immediately
after the third mutation. -/
theorem C1_cap_exceeded_counterexample :
    (demoState3.user_message_cache 1).length = 6 ∧
    cfg0.MAX_CACHE < (demoState3.user_message_cache 1).length := by
  refine ⟨by decide, by decide⟩

/-- C1 (corrected): the cap is only loosely enforced.  After any
mutation of a user's history (suppressed, failed, or successful
exchange) the stored length is bounded by one more than the larger of
the pre-mutation length and `MAX_CACHE`: a below-cap history grows by
two to at most the cap plus one, and an at-or-above-cap history evicts
one item and appends two, a net growth of one. -/
theorem C1_history_loose_bound (cfg : Config) (s : BotState) (m : Message)
    (completion : Except String String) (hmc : 1 ≤ cfg.MAX_CACHE) :
    ((chat_with_openai cfg s m completion).state.user_message_cache m.authorId).length ≤
      max (s.user_message_cache m.authorId).length cfg.MAX_CACHE + 1 := by
  have hleft := Nat.le_max_left (s.user_message_cache m.authorId).length cfg.MAX_CACHE
  have hright := Nat.le_max_right (s.user_message_cache m.authorId).length cfg.MAX_CACHE
  by_cases hcd : s.user_cooldown m.authorId ≠ 0
  · rw [chat_with_openai_suppressed cfg s m completion hcd]
    show (s.user_message_cache m.authorId).length ≤ _
    omega
  · have hcd0 : s.user_cooldown m.authorId = 0 := by omega
    cases completion with
    | error e =>
        rw [chat_with_openai_error_eq, if_neg hcd]
        show (s.user_message_cache m.authorId).length ≤ _
        omega
    | ok t =>
        rw [chat_with_openai_ok_cache cfg s m t hcd0, List.length_append]
        have h2 : ([⟨"user", m.content⟩, ⟨"assistant", t⟩] : List Turn).length = 2 := rfl
        split
        · rename_i hge
          rw [List.length_tail]
          omega
        · rename_i hlt
          omega

/-- Witness for the amended C1 bound on the initial state. -/
theorem C1_history_loose_bound_witness :
    1 ≤ cfg0.MAX_CACHE ∧
    ((chat_with_openai cfg0 BotState.init msg0 (Except.ok "r")).state.user_message_cache msg0.authorId).length ≤
      max (BotState.init.user_message_cache msg0.authorId).length cfg0.MAX_CACHE + 1 :=
  ⟨by decide, C1_history_loose_bound cfg0 BotState.init msg0 (Except.ok "r") (by decide)⟩

/-- C2 counterexample: an engaged, permitted message whose completion
call fails still overwrites the author's last-interaction record with
the current time and channel. -/
theorem C2_failure_updates_counterexample :
    (on_message cfg0 BotState.init 1000000 msg0 (Except.error "boom")).snd
        = HandleOutcome.chatted (ChatOutcome.failed "boom") ∧
    (on_message cfg0 BotState.init 1000000 msg0 (Except.error "boom")).fst.user_last_interaction 1
        ≠ BotState.init.user_last_interaction 1 ∧
    (on_message cfg0 BotState.init 1000000 msg0 (Except.error "boom")).fst.user_last_interaction 1
        = ⟨1000000, some 7⟩ := by
  refine ⟨by decide, by decide, by decide⟩

/-- C2 (corrected): the last-interaction record is updated to the
current time and channel after every engaged, permission-granted event,
whatever the outcome of the chat step — success, failed completion
call, or cooldown suppression alike; only bot-authored, not-engaged and
permission-denied events leave it unchanged. -/
theorem C2_last_interaction_always_updated (cfg : Config) (s : BotState)
    (now : Int) (m : Message) (completion : Except String String)
    (hbot : m.authorIsBot = false)
    (heng : shouldRespond (s.user_last_interaction m.authorId) now m = true)
    (hperm : m.hasPermission = true) :
    (on_message cfg s now m completion).fst.user_last_interaction m.authorId
      = ⟨now, some m.channelId⟩ := by
  unfold on_message
  rw [if_neg (by simp [hbot]), if_neg (by simp [heng]), if_neg (by simp [hperm])]
  simp [updFn]

/-- Witness for the amended C2 on the initial state with a failing
completion call. -/
theorem C2_last_interaction_always_updated_witness :
    msg0.authorIsBot = false ∧
    shouldRespond (BotState.init.user_last_interaction msg0.authorId) 0 msg0 = true ∧
    msg0.hasPermission = true ∧
    (on_message cfg0 BotState.init 0 msg0 (Except.error "x")).fst.user_last_interaction msg0.authorId
      = ⟨0, some msg0.channelId⟩ :=
  ⟨rfl, by decide, rfl,
    C2_last_interaction_always_updated cfg0 BotState.init 0 msg0 (Except.error "x")
      rfl (by decide) rfl⟩

/-- C4 (confirmed): for an engaged, permitted, admitted event whose
completion call fails, the handler reports the failure, leaves every
user's stored history and cooldown entry unchanged, and an immediately
following event from the same user is not rejected for cooldown. -/
theorem C4_failure_frame (cfg : Config) (s : BotState) (now : Int) (m : Message)
    (e : String) (m2 : Message) (c2 : Except String String)
    (hbot : m.authorIsBot = false)
    (heng : shouldRespond (s.user_last_interaction m.authorId) now m = true)
    (hperm : m.hasPermission = true)
    (hadm : s.user_cooldown m.authorId = 0)
    (hsame : m2.authorId = m.authorId) :
    (on_message cfg s now m (Except.error e)).snd
        = HandleOutcome.chatted (ChatOutcome.failed e) ∧
    (on_message cfg s now m (Except.error e)).fst.user_message_cache
        = s.user_message_cache ∧
    (on_message cfg s now m (Except.error e)).fst.user_cooldown
        = s.user_cooldown ∧
    (chat_with_openai cfg (on_message cfg s now m (Except.error e)).fst m2 c2).outcome
        ≠ ChatOutcome.suppressedCooldown := by
  have hchat : chat_with_openai cfg s m (Except.error e)
      = { state := s, outcome := .failed e,
          request := some (buildMessages cfg.SYSTEM_MESSAGE
            (s.user_message_cache m.authorId) m.content),
          typingStarted := true, typingCancelled := true } := by
    rw [chat_with_openai_error_eq, if_neg (by simp [hadm])]
  have hmsg : on_message cfg s now m (Except.error e)
      = Prod.mk
          { s with user_last_interaction := updFn s.user_last_interaction m.authorId ⟨now, some m.channelId⟩ }
          (HandleOutcome.chatted (ChatOutcome.failed e)) := by
    unfold on_message
    rw [if_neg (by simp [hbot]), if_neg (by simp [heng]), if_neg (by simp [hperm]),
        hchat]
  rw [hmsg]
  refine ⟨rfl, rfl, rfl, ?_⟩
  unfold chat_with_openai
  rw [if_neg (by simp [hsame, hadm])]
  cases c2 <;> simp

/-- Witness for C4 on the initial state. -/
theorem C4_failure_frame_witness :
    msg0.authorIsBot = false ∧
    shouldRespond (BotState.init.user_last_interaction msg0.authorId) 0 msg0 = true ∧
    msg0.hasPermission = true ∧
    BotState.init.user_cooldown msg0.authorId = 0 ∧
    msg0.authorId = msg0.authorId ∧
    ((on_message cfg0 BotState.init 0 msg0 (Except.error "boom")).snd
        = HandleOutcome.chatted (ChatOutcome.failed "boom") ∧
      (on_message cfg0 BotState.init 0 msg0 (Except.error "boom")).fst.user_message_cache
        = BotState.init.user_message_cache ∧
      (on_message cfg0 BotState.init 0 msg0 (Except.error "boom")).fst.user_cooldown
        = BotState.init.user_cooldown ∧
      (chat_with_openai cfg0 (on_message cfg0 BotState.init 0 msg0 (Except.error "boom")).fst
          msg0 (Except.ok "r")).outcome
        ≠ ChatOutcome.suppressedCooldown) :=
  ⟨rfl, by decide, rfl, rfl, rfl,
    C4_failure_frame cfg0 BotState.init 0 msg0 "boom" msg0 (Except.ok "r")
      rfl (by decide) rfl rfl rfl⟩

/-- C5 (confirmed): a successful admitted exchange arms the cooldown to
`COOLDOWN_TIME`; while it is armed, an immediately following attempt by
the same user (whatever its completion would return, so even a
qualifying mention) is suppressed with the cooldown notice and no
request is sent; after the expiry task resets the cooldown, the same
user's next attempt is admitted and replied to again. -/
theorem C5_cooldown_gating (cfg : Config) (s : BotState) (m m2 m3 : Message)
    (t t3 : String) (c2 : Except String String)
    (hadm : s.user_cooldown m.authorId = 0)
    (hct : cfg.COOLDOWN_TIME ≠ 0)
    (h2 : m2.authorId = m.authorId)
    (h3 : m3.authorId = m.authorId) :
    (chat_with_openai cfg s m (Except.ok t)).state.user_cooldown m.authorId
        = cfg.COOLDOWN_TIME ∧
    (chat_with_openai cfg (chat_with_openai cfg s m (Except.ok t)).state m2 c2).outcome
        = ChatOutcome.suppressedCooldown ∧
    (chat_with_openai cfg (chat_with_openai cfg s m (Except.ok t)).state m2 c2).request
        = none ∧
    (chat_with_openai cfg
        (cooldown_user (chat_with_openai cfg s m (Except.ok t)).state m.authorId)
        m3 (Except.ok t3)).outcome
        = ChatOutcome.replied t3 := by
  have harm := chat_with_openai_ok_cooldown cfg s m t hadm
  have hcd2 : (chat_with_openai cfg s m (Except.ok t)).state.user_cooldown m2.authorId ≠ 0 := by
    rw [h2, harm]
    exact hct
  have hsup := chat_with_openai_suppressed cfg
    (chat_with_openai cfg s m (Except.ok t)).state m2 c2 hcd2
  refine ⟨harm, by rw [hsup], by rw [hsup], ?_⟩
  apply chat_with_openai_ok_outcome
  rw [h3]
  simp [cooldown_user, updFn]

/-- Witness for C5 on the initial state with the default configuration. -/
theorem C5_cooldown_gating_witness :
    BotState.init.user_cooldown msg0.authorId = 0 ∧
    cfg0.COOLDOWN_TIME ≠ 0 ∧
    ((chat_with_openai cfg0 BotState.init msg0 (Except.ok "r1")).state.user_cooldown msg0.authorId
        = cfg0.COOLDOWN_TIME ∧
      (chat_with_openai cfg0 (chat_with_openai cfg0 BotState.init msg0 (Except.ok "r1")).state
          msg0 (Except.ok "r2")).outcome
        = ChatOutcome.suppressedCooldown ∧
      (chat_with_openai cfg0 (chat_with_openai cfg0 BotState.init msg0 (Except.ok "r1")).state
          msg0 (Except.ok "r2")).request
        = none ∧
      (chat_with_openai cfg0
          (cooldown_user (chat_with_openai cfg0 BotState.init msg0 (Except.ok "r1")).state msg0.authorId)
          msg0 (Except.ok "r3")).outcome
        = ChatOutcome.replied "r3") :=
  ⟨rfl, by decide,
    C5_cooldown_gating cfg0 BotState.init msg0 msg0 msg0 "r1" "r3" (Except.ok "r2")
      rfl (by decide) rfl rfl⟩
